import Mathlib

/-!
Verification of the werewolf game session core (qianlnk/werewolf).

Shallow embedding of the Go sources in `services/` and `models/`:
the data model (`models.Player`, `models.GameAction`, `GameState`),
the phase state machine (`StateMachine.TransitionPhase`,
`processNightResults`, `processVoteResults`, `checkGameEnd`),
the validation pipeline (`isValidAction`, `GameState.AddAction`,
`GameController.ProcessAction`, `GameManager.ProcessAction`,
`checkAndUpdatePhase`) and the skill manager (`SkillManager.UseWitchSkill`).

Go maps iterate in an unspecified order; functions that iterate the vote
tally map take the iteration order as an explicit parameter `ord`,
constrained in theorems to be a permutation of the canonical entry list.
Wall-clock timestamps are passed in as an explicit `now` parameter.
Mutation is modelled by explicit state passing; errors by `Option String`
(message of the returned non-nil `error`) or `Except String`.
-/

namespace Werewolf

/-- models.Role (string constants in Go, a closed enumeration). -/
inductive Role where
  | werewolf
  | seer
  | witch
  | villager
  | hunter
  | guard
  | cupid
  | thief
  | whiteWolf
deriving DecidableEq, Repr

/-- models.Player. The `Type` and `Personality` fields only drive the AI
decision engine and are not consumed by any embedded function, so they are
omitted. -/
structure Player where
  id : String
  name : String
  role : Role
  alive : Bool
  isLover : Bool
deriving DecidableEq, Repr

/-- models.GameAction. -/
structure GameAction where
  type : String
  playerID : String
  targetID : String := ""
  timestamp : Int := 0
  roomID : String := ""
  content : String := ""
deriving DecidableEq, Repr

/-- SkillStatus (skill_manager.go). -/
structure SkillStatus where
  used : Bool := false
  target : String := ""
deriving DecidableEq, Repr

/-- WitchSkills (skill_manager.go). -/
structure WitchSkills where
  savePotion : SkillStatus := {}
  poisonPotion : SkillStatus := {}
deriving DecidableEq, Repr

/-- GameState (game_state.go). The `Room` field is only read for
`Room.MinPlayers` at start and for broadcasting; it is not consumed by the
embedded functions and is omitted. `Skills` is the witch skill ledger,
a map modelled as an association list. -/
structure GameState where
  roomID : String := ""
  players : List Player
  phase : String
  round : Nat
  actions : List GameAction
  timeLeft : Int
  isStarted : Bool
  skills : List (String × WitchSkills) := []
deriving DecidableEq, Repr

/-- StateMachine (game_state_machine.go): holds the game and the win status. -/
structure StateMachine where
  game : GameState
  status : String := ""
deriving DecidableEq, Repr

-- Phase constants (game.go).
def PhaseNight : String := "night"
def PhaseDay : String := "day"
def PhaseVote : String := "vote"

-- Win status constants (game_state_machine.go).
def GameOngoing : String := "ongoing"
def WerewolfWin : String := "werewolf_win"
def VillagerWin : String := "villager_win"
def LoversWin : String := "lovers_win"
def WhiteWolfWin : String := "white_wolf_win"

-- Error messages returned by the Go code.
def gameNotStartedMsg : String := "游戏尚未开始"
def invalidActionMsg : String := "无效的动作"
def invalidGameActionMsg : String := "无效的游戏动作"
def invalidTargetMsg : String := "无效的目标玩家"
def phaseIncompleteMsg : String := "当前阶段尚未完成所有必要动作"
def loversWinMsg : String := "情侣阵营胜利：只剩下情侣存活"
def whiteWolfWinMsg : String := "白狼王觉醒胜利：白狼王成为最后的胜利者"
def villagerWinMsg : String := "好人阵营胜利：所有狼人都已被清除"
def werewolfWinMsg : String := "狼人阵营胜利：狼人数量已经超过或等于好人数量"
def notWitchMsg : String := "非女巫角色"
def noSuchTargetMsg : String := "目标玩家不存在"
def saveUsedMsg : String := "救人技能已使用"
def poisonUsedMsg : String := "毒药已使用"
def invalidSkillKindMsg : String := "无效的技能类型"

/-- Whether a role counts to the wolf faction (`models.Werewolf` or
`models.WhiteWolf`), the disjunction used throughout the Go code. -/
def isWolfRole (r : Role) : Bool :=
  r == Role.werewolf || r == Role.whiteWolf

/-- Update the first element of a list satisfying `pr` (the Go pattern
`for i := range xs ... if cond then mutate; break`). -/
def updateFirst {α : Type} (pr : α → Bool) (f : α → α) : List α → List α
  | [] => []
  | x :: xs => if pr x then f x :: xs else x :: updateFirst pr f xs

/-- `setAlive b p` mutates the `Alive` field (`player.Alive = b`). -/
def setAlive (b : Bool) (p : Player) : Player :=
  { p with alive := b }

/-- processActionResult (game.go): the new `Players` slice.  `kill`, `vote`
and `poison` set the first player with the target's ID dead, `save` sets it
alive; other action types leave the roster unchanged. -/
def resultPlayers (players : List Player) (a : GameAction) : List Player :=
  if a.type == "kill" then
    updateFirst (fun p => p.id == a.targetID) (setAlive false) players
  else if a.type == "save" || a.type == "poison" then
    updateFirst (fun p => p.id == a.targetID)
      (fun p => if a.type == "save" then setAlive true p else setAlive false p) players
  else if a.type == "vote" then
    updateFirst (fun p => p.id == a.targetID) (setAlive false) players
  else players

/-- processActionResult (game.go): only mutates `game.Players`. -/
def processActionResult (g : GameState) (a : GameAction) : GameState :=
  { g with players := resultPlayers g.players a }

/-- StateMachine.hasActionOfType (game_state_machine.go). -/
def hasActionOfType (g : GameState) (playerID actionType : String) : Bool :=
  g.actions.any (fun a => a.playerID == playerID && a.type == actionType)

/-- StateMachine.checkNightActionsComplete (game_state_machine.go):
every living wolf has a kill, living seer a check, living guard a protect;
the witch may decline; other roles have no required night action. -/
def checkNightActionsComplete (g : GameState) : Bool :=
  g.players.all (fun p =>
    if !p.alive then true
    else if p.role == Role.werewolf || p.role == Role.whiteWolf then
      hasActionOfType g p.id "kill"
    else if p.role == Role.seer then hasActionOfType g p.id "check"
    else if p.role == Role.guard then hasActionOfType g p.id "protect"
    else true)

/-- StateMachine.checkVoteComplete (game_state_machine.go): every living
player has a vote action in the log. -/
def checkVoteComplete (g : GameState) : Bool :=
  ((g.players.filter (·.alive)).countP (fun p => hasActionOfType g p.id "vote"))
    == (g.players.filter (·.alive)).length

/-- StateMachine.isPhaseComplete (game_state_machine.go). -/
def isPhaseComplete (g : GameState) : Bool :=
  if g.phase == PhaseNight then checkNightActionsComplete g
  else if g.phase == PhaseDay then decide (g.timeLeft ≤ 0)
  else if g.phase == PhaseVote then checkVoteComplete g
  else false

/-- StateMachine.processNightResults (game_state_machine.go): apply all
kill actions in log order, then all save/poison actions in log order, then
clear the log. -/
def processNightResults (g : GameState) : GameState :=
  let g1 := g.actions.foldl
    (fun s a => if a.type == "kill" then processActionResult s a else s) g
  let g2 := g1.actions.foldl
    (fun s a => if a.type == "save" || a.type == "poison" then processActionResult s a else s) g1
  { g2 with actions := [] }

/-- Number of vote actions for a given target in a log (one increment of
`votes[action.TargetID]++` per matching action). -/
def voteCountFor (actions : List GameAction) (t : String) : Nat :=
  (actions.filter (fun a => a.type == "vote" && a.targetID == t)).length

/-- The distinct targets of the vote actions in a log: the key set of the
Go `votes` map. -/
def voteTargets (actions : List GameAction) : List String :=
  ((actions.filter (fun a => a.type == "vote")).map (fun a => a.targetID)).dedup

/-- The entries of the Go `votes` map built by processVoteResults: each
distinct vote target paired with its tally. Go iterates these entries in an
unspecified order; theorems quantify over permutations of this list. -/
def tallyEntries (g : GameState) : List (String × Nat) :=
  (voteTargets g.actions).map (fun t => (t, voteCountFor g.actions t))

/-- One step of the max-finding loop of processVoteResults:
`if count > maxVotes then maxVotes, eliminatedID = count, playerID`. -/
def voteStep (acc : Nat × String) (e : String × Nat) : Nat × String :=
  if e.2 > acc.1 then (e.2, e.1) else acc

/-- The `eliminatedID` computed by processVoteResults when the map entries
are presented in order `entries` (initial accumulator `maxVotes = 0`,
`eliminatedID = ""`). -/
def findEliminated (entries : List (String × Nat)) : String :=
  (entries.foldl voteStep (0, "")).2

/-- StateMachine.processVoteResults (game_state_machine.go), with the map
iteration order `ord` explicit: find the eliminated ID, apply a synthetic
vote action against it when nonempty, clear the log. -/
def processVoteResults (ord : List (String × Nat)) (g : GameState) : GameState :=
  let eliminatedID := findEliminated ord
  let g1 :=
    if eliminatedID != "" then
      processActionResult g { type := "vote", playerID := "", targetID := eliminatedID }
    else g
  { g1 with actions := [] }

/-- Living players (`player.Alive` filter used by checkGameEnd). -/
def alivePlayers (g : GameState) : List Player :=
  g.players.filter (·.alive)

/-- checkGameEnd's `werewolfCount`: living werewolves plus white wolves. -/
def werewolfCnt (g : GameState) : Nat :=
  (alivePlayers g).countP (fun p => isWolfRole p.role)

/-- checkGameEnd's `whiteWolfCount`: living white wolves. -/
def whiteWolfCnt (g : GameState) : Nat :=
  (alivePlayers g).countP (fun p => p.role == Role.whiteWolf)

/-- checkGameEnd's `villagerCount`: every living player whose role is not
wolf-aligned (the `default` branch of the switch). -/
def villagerCnt (g : GameState) : Nat :=
  (alivePlayers g).countP (fun p => !isWolfRole p.role)

/-- checkGameEnd's `loversAlive`: living players flagged as lovers. -/
def loversAliveCnt (g : GameState) : Nat :=
  (alivePlayers g).countP (·.isLover)

/-- The lover-win condition of checkGameEnd:
`loversAlive == 2 && loversAlive == villagerCount+werewolfCount`. -/
def loverWinCond (g : GameState) : Bool :=
  loversAliveCnt g == 2 && loversAliveCnt g == villagerCnt g + werewolfCnt g

/-- The white-wolf solo-win condition of checkGameEnd. -/
def whiteWolfWinCond (g : GameState) : Bool :=
  whiteWolfCnt g == 1 && werewolfCnt g == 1 && villagerCnt g == 0

/-- StateMachine.checkGameEnd (game_state_machine.go): the status stored in
`sm.status` and the error value returned (nil iff the game is ongoing).
The code also computes `loversWolfCount`/`loversVillagerCount`, which no
condition reads; they are omitted. -/
def gameEndStatus (g : GameState) : String × Option String :=
  if loverWinCond g then (LoversWin, some loversWinMsg)
  else if whiteWolfWinCond g then (WhiteWolfWin, some whiteWolfWinMsg)
  else if werewolfCnt g == 0 then (VillagerWin, some villagerWinMsg)
  else if villagerCnt g ≤ werewolfCnt g then (WerewolfWin, some werewolfWinMsg)
  else (GameOngoing, none)

/-- checkGameEnd as a state transformer: sets `sm.status`, returns the error. -/
def checkGameEnd (sm : StateMachine) : StateMachine × Option String :=
  ({ sm with status := (gameEndStatus sm.game).1 }, (gameEndStatus sm.game).2)

/-- StateMachine.TransitionPhase (game_state_machine.go).  Guards: started
and phase complete.  Then: night resolves and moves to day; day moves to
vote; vote resolves, moves to night and increments the round.  Resets the
phase timer and evaluates `checkGameEnd` (whose error, if any, is
returned with the mutated state). -/
def StateMachine.transitionPhase (ord : List (String × Nat)) (sm : StateMachine) :
    StateMachine × Option String :=
  if !sm.game.isStarted then (sm, some gameNotStartedMsg)
  else if !(isPhaseComplete sm.game) then (sm, some phaseIncompleteMsg)
  else
    let g := sm.game
    let g1 :=
      if g.phase == PhaseNight then { processNightResults g with phase := PhaseDay }
      else if g.phase == PhaseDay then { g with phase := PhaseVote }
      else if g.phase == PhaseVote then
        let gv := processVoteResults ord g
        { gv with phase := PhaseNight, round := gv.round + 1 }
      else g
    checkGameEnd { sm with game := { g1 with timeLeft := 120 } }

/-- checkAndUpdatePhase (game.go): unconditionally advance one phase,
incrementing the round on vote, and reset the timer. -/
def checkAndUpdatePhase (g : GameState) : GameState :=
  let g1 :=
    if g.phase == PhaseNight then { g with phase := PhaseDay }
    else if g.phase == PhaseDay then { g with phase := PhaseVote }
    else if g.phase == PhaseVote then { g with phase := PhaseNight, round := g.round + 1 }
    else g
  { g1 with timeLeft := 120 }

/-- isValidAction (game.go): actor looked up by ID (Go's zero-value player
is dead when absent), must be alive, and the action kind must match the
actor's role for the current phase. -/
def isValidAction (g : GameState) (a : GameAction) : Bool :=
  match g.players.find? (fun p => p.id == a.playerID) with
  | none => false
  | some p =>
    if !p.alive then false
    else if g.phase == PhaseNight then
      if a.type == "kill" then isWolfRole p.role
      else if a.type == "check" then p.role == Role.seer
      else if a.type == "save" || a.type == "poison" then p.role == Role.witch
      else if a.type == "protect" then p.role == Role.guard
      else false
    else if g.phase == PhaseDay then a.type == "discuss"
    else if g.phase == PhaseVote then a.type == "vote"
    else false

/-- The target-validation loop of GameState.AddAction: the first player
matching the target's ID who is alive decides; at night a kill may not
target a wolf-aligned player; at vote any living player is a valid target;
in other phases no target is valid. -/
def targetValid (g : GameState) (a : GameAction) : Bool :=
  match g.players.find? (fun p => p.id == a.targetID && p.alive) with
  | none => false
  | some p =>
    if g.phase == PhaseNight then
      if a.type == "kill" then !(p.role == Role.werewolf || p.role == Role.whiteWolf)
      else true
    else if g.phase == PhaseVote then true
    else false

/-- GameState.AddAction (game_state.go): started guard, action validation,
target validation when a target is named, then stamp the timestamp and
append. -/
def addAction (g : GameState) (a : GameAction) (now : Int) : Except String GameState :=
  if !g.isStarted then Except.error gameNotStartedMsg
  else if !(isValidAction g a) then Except.error invalidActionMsg
  else if a.targetID != "" && !(targetValid g a) then Except.error invalidTargetMsg
  else Except.ok { g with actions := g.actions ++ [{ a with timestamp := now }] }

/-- GameController.endCurrentPhase (game_controller.go): run the state
machine transition; an error equal to a win constant is swallowed after
game-end handling, other errors propagate.  The timer restart and the AI
action pass it schedules are controller plumbing with no effect on the
rejection and incomplete-phase paths settled here and are elided. -/
def endCurrentPhase (ord : List (String × Nat)) (sm : StateMachine) :
    StateMachine × Option String :=
  match sm.transitionPhase ord with
  | (sm1, some e) =>
    if e == VillagerWin || e == WerewolfWin then (sm1, none) else (sm1, some e)
  | (sm1, none) => (sm1, none)

/-- GameController.ProcessAction (game_controller.go): the target must be
the ID of some roster member (dead or alive, before any role/phase
validation), then the action goes through GameState.AddAction, then its
result is applied immediately, then the phase is ended if complete. -/
def controllerProcessAction (ord : List (String × Nat)) (sm : StateMachine)
    (a : GameAction) (now : Int) : StateMachine × Option String :=
  if !(sm.game.players.any (fun p => p.id == a.targetID)) then
    (sm, some invalidTargetMsg)
  else
    match addAction sm.game a now with
    | Except.error e => (sm, some e)
    | Except.ok g1 =>
      let g2 := processActionResult g1 a
      let sm2 := { sm with game := g2 }
      if isPhaseComplete g2 then endCurrentPhase ord sm2 else (sm2, none)

/-- GameManager.ProcessAction (game.go): validity check, first append (no
timestamp), state-machine transition on a fresh StateMachine; on error the
started flag is cleared when the message equals a win constant; on success
the action is appended a second time, its result applied, and
checkAndUpdatePhase advances the phase again. -/
def gmProcessAction (ord : List (String × Nat)) (g : GameState) (a : GameAction) :
    GameState × Option String :=
  if !g.isStarted then (g, some gameNotStartedMsg)
  else if !(isValidAction g a) then (g, some invalidGameActionMsg)
  else
    let g1 : GameState := { g with actions := g.actions ++ [a] }
    let sm : StateMachine := { game := g1, status := "" }
    match sm.transitionPhase ord with
    | (sm2, some e) =>
      (if e == WerewolfWin || e == VillagerWin then { sm2.game with isStarted := false }
       else sm2.game, some e)
    | (sm2, none) =>
      let g3 := { sm2.game with actions := sm2.game.actions ++ [a] }
      let g4 := processActionResult g3 a
      (checkAndUpdatePhase g4, none)

/-- SkillManager.getWitchSkills (skill_manager.go): returns a fresh
zero-valued WitchSkills record on every call, ignoring the stored ledger
(its own comment notes a real implementation should read the game state). -/
def getWitchSkills (g : GameState) (witchID : String) : WitchSkills := {}

/-- SkillManager.UseWitchSkill (skill_manager.go): witch-identity check,
target-existence check, then the availability check against
`getWitchSkills` (a throwaway record, whose in-place flag update is lost),
then the action is recorded. -/
def useWitchSkill (g : GameState) (witchID targetID skillType : String) :
    GameState × Option String :=
  match g.players.find? (fun p => p.id == witchID) with
  | none => (g, some notWitchMsg)
  | some w =>
    if !(w.role == Role.witch) then (g, some notWitchMsg)
    else
      match g.players.find? (fun p => p.id == targetID) with
      | none => (g, some noSuchTargetMsg)
      | some _ =>
        let skills := getWitchSkills g witchID
        if skillType == "save" then
          if skills.savePotion.used then (g, some saveUsedMsg)
          else ({ g with actions := g.actions ++
            [{ type := skillType, playerID := witchID, targetID := targetID }] }, none)
        else if skillType == "poison" then
          if skills.poisonPotion.used then (g, some poisonUsedMsg)
          else ({ g with actions := g.actions ++
            [{ type := skillType, playerID := witchID, targetID := targetID }] }, none)
        else (g, some invalidSkillKindMsg)

/-! ### Derived notions used to state the claims -/

/-- The alive flag of the first roster member with the given ID, if any
(the projection the claims reason about). -/
def aliveOf (l : List Player) (pid : String) : Option Bool :=
  (l.find? (fun p => p.id == pid)).map (·.alive)

/-- The last save/poison action in a log that targets `pid` (later
submissions override earlier ones during the witch pass of
processNightResults). -/
def lastWitchTargeting (pid : String) : List GameAction → Option GameAction
  | [] => none
  | a :: rest =>
    let r := lastWitchTargeting pid rest
    if (a.type == "save" || a.type == "poison") && a.targetID == pid then
      match r with
      | some b => some b
      | none => some a
    else r

/-- Whether some kill action in the log targets `pid`. -/
def hasKillOn (actions : List GameAction) (pid : String) : Bool :=
  actions.any (fun a => a.type == "kill" && a.targetID == pid)

/-- The successor phase in the strict night→day→vote→night cycle. -/
def nextPhase (p : String) : String :=
  if p == PhaseNight then PhaseDay
  else if p == PhaseDay then PhaseVote
  else if p == PhaseVote then PhaseNight
  else p

/-! ### Concrete session states used by witnesses and counterexamples -/

/-- Shorthand for roster members of the concrete sessions below. -/
def mkPlayer (id : String) (role : Role) (alive : Bool) (lover : Bool) : Player :=
  { id := id, name := id, role := role, alive := alive, isLover := lover }

/-- A vote-phase session whose log holds the tallies A:2, B:2 (a tie). -/
def gTie : GameState :=
  { players := [mkPlayer "A" Role.villager true false, mkPlayer "B" Role.villager true false,
                mkPlayer "P1" Role.villager true false, mkPlayer "P2" Role.villager true false],
    phase := PhaseVote, round := 1,
    actions := [{ type := "vote", playerID := "P1", targetID := "A" },
                { type := "vote", playerID := "P2", targetID := "A" },
                { type := "vote", playerID := "A", targetID := "B" },
                { type := "vote", playerID := "B", targetID := "B" }],
    timeLeft := 120, isStarted := true }

/-- A vote-phase session whose log holds the tallies A:3, B:2, C:2 among
seven living participants. -/
def gMaj : GameState :=
  { players := [mkPlayer "A" Role.villager true false, mkPlayer "B" Role.villager true false,
                mkPlayer "C" Role.werewolf true false, mkPlayer "P1" Role.villager true false,
                mkPlayer "P2" Role.villager true false, mkPlayer "P3" Role.villager true false,
                mkPlayer "P4" Role.werewolf true false],
    phase := PhaseVote, round := 2,
    actions := [{ type := "vote", playerID := "P1", targetID := "A" },
                { type := "vote", playerID := "P2", targetID := "A" },
                { type := "vote", playerID := "P3", targetID := "A" },
                { type := "vote", playerID := "P4", targetID := "B" },
                { type := "vote", playerID := "A", targetID := "B" },
                { type := "vote", playerID := "B", targetID := "C" },
                { type := "vote", playerID := "C", targetID := "C" }],
    timeLeft := 120, isStarted := true }

/-- A night-phase session with a witch `W` and a target `T`, ledger present. -/
def gWitch : GameState :=
  { players := [mkPlayer "W" Role.witch true false, mkPlayer "T" Role.villager true false,
                mkPlayer "K" Role.werewolf true false],
    phase := PhaseNight, round := 1, actions := [],
    timeLeft := 120, isStarted := true, skills := [("W", {})] }

/-- The session after the witch's first (successful) use of the save potion. -/
def gWitch1 : GameState := (useWitchSkill gWitch "W" "T" "save").1

/-- A night-resolution input in which `P` is already dead and the log holds
a single save targeting `P` and no kill. -/
def gRes : GameState :=
  { players := [mkPlayer "P" Role.villager false false, mkPlayer "W" Role.witch true false,
                mkPlayer "K" Role.werewolf true false],
    phase := PhaseNight, round := 2,
    actions := [{ type := "save", playerID := "W", targetID := "P" }],
    timeLeft := 120, isStarted := true }

/-- A roster with exactly two living participants, both lovers, one
wolf-aligned and one village-aligned (wolf parity also holds). -/
def smLovers : StateMachine :=
  { game :=
    { players := [mkPlayer "L1" Role.werewolf true true, mkPlayer "L2" Role.villager true true,
                  mkPlayer "D1" Role.seer false false, mkPlayer "D2" Role.villager false false],
      phase := PhaseDay, round := 3, actions := [], timeLeft := 50, isStarted := true },
    status := "" }

/-- A day-phase session whose timer has expired, used to drive
GameManager.ProcessAction through its successful-transition path. -/
def gDayTimeout : GameState :=
  { players := [mkPlayer "W1" Role.werewolf true false, mkPlayer "V1" Role.villager true false,
                mkPlayer "V2" Role.villager true false],
    phase := PhaseDay, round := 1, actions := [], timeLeft := 0, isStarted := true }

/-- The discuss action submitted to `gDayTimeout`. -/
def aDiscuss : GameAction := { type := "discuss", playerID := "V1" }

/-- A state machine whose status already records a terminal wolf win, with
a complete (timed-out) day phase still pending. -/
def smTerminal : StateMachine :=
  { game :=
    { players := [mkPlayer "W1" Role.werewolf true false, mkPlayer "V1" Role.villager true false],
      phase := PhaseDay, round := 4, actions := [], timeLeft := 0, isStarted := true },
    status := WerewolfWin }

/-- A night-phase session with two living wolves and a living villager. -/
def gNight : GameState :=
  { players := [mkPlayer "W1" Role.werewolf true false, mkPlayer "X" Role.werewolf true false,
                mkPlayer "V" Role.villager true false, mkPlayer "S" Role.seer true false],
    phase := PhaseNight, round := 1, actions := [], timeLeft := 120, isStarted := true }

/-- A kill submitted by wolf `W1` against fellow wolf `X` in `gNight`. -/
def aKillWolf : GameAction := { type := "kill", playerID := "W1", targetID := "X" }

/-- A kill submitted by wolf `W1` against villager `V` in `gNight`. -/
def aKillVill : GameAction := { type := "kill", playerID := "W1", targetID := "V" }

/-- The controller state over `gNight`. -/
def smNight : StateMachine := { game := gNight, status := "" }

/-- `gNight` right after `aKillVill` is appended by GameState.AddAction. -/
def gNightAfter : GameState :=
  { gNight with actions := [{ type := "kill", playerID := "W1", targetID := "V" }] }

/-- A controller state used for the roster-membership target check. -/
def smRoster : StateMachine :=
  { game :=
    { players := [mkPlayer "V1" Role.villager true false, mkPlayer "V2" Role.villager true false,
                  mkPlayer "W1" Role.werewolf true false],
      phase := PhaseDay, round := 1, actions := [], timeLeft := 80, isStarted := true },
    status := "" }

/-- A discuss action with an empty target identifier. -/
def aDiscussEmpty : GameAction := { type := "discuss", playerID := "V1", targetID := "" }

/-! ### Helper lemmas -/

theorem foldl_preserve {α β : Type} (proj : GameState → β) (f : GameState → α → GameState)
    (hf : ∀ s a, proj (f s a) = proj s) :
    ∀ (l : List α) (s : GameState), proj (l.foldl f s) = proj s := by
  intro l
  induction l with
  | nil => intro s; rfl
  | cons a t ih => intro s; rw [List.foldl_cons, ih, hf]

theorem aliveOf_cons_ne (p : Player) (t : List Player) (pid : String) (h : p.id ≠ pid) :
    aliveOf (p :: t) pid = aliveOf t pid := by
  simp [aliveOf, List.find?_cons, h]

theorem aliveOf_cons_eq (p : Player) (t : List Player) (pid : String) (h : p.id = pid) :
    aliveOf (p :: t) pid = some p.alive := by
  simp [aliveOf, List.find?_cons, h]

theorem aliveOf_updateFirst (x pid : String) (b : Bool) (l : List Player) :
    aliveOf (updateFirst (fun p => p.id == x) (setAlive b) l) pid =
      if pid = x then (aliveOf l pid).map (fun _ => b) else aliveOf l pid := by
  induction l with
  | nil =>
    simp only [updateFirst, aliveOf, List.find?_nil, Option.map_none']
    split <;> rfl
  | cons p t ih =>
    by_cases hpx : p.id = x
    · have hu : updateFirst (fun p => p.id == x) (setAlive b) (p :: t)
          = setAlive b p :: t := by simp [updateFirst, hpx]
      by_cases hppid : p.id = pid
      · have hpidx : pid = x := hppid ▸ hpx
        rw [hu, aliveOf_cons_eq _ _ _ (show (setAlive b p).id = pid from hppid),
          if_pos hpidx, aliveOf_cons_eq _ _ _ hppid]
        rfl
      · have hpidx : pid ≠ x := fun h => hppid (hpx.trans h.symm)
        rw [hu, aliveOf_cons_ne _ _ _ (show (setAlive b p).id ≠ pid from hppid),
          if_neg hpidx, aliveOf_cons_ne _ _ _ hppid]
    · have hu : updateFirst (fun p => p.id == x) (setAlive b) (p :: t)
          = p :: updateFirst (fun p => p.id == x) (setAlive b) t := by
        simp [updateFirst, hpx]
      by_cases hppid : p.id = pid
      · have hpidx : pid ≠ x := fun h => hpx (hppid.trans h)
        rw [hu, aliveOf_cons_eq _ _ _ hppid, if_neg hpidx, aliveOf_cons_eq _ _ _ hppid]
      · rw [hu, aliveOf_cons_ne _ _ _ hppid, aliveOf_cons_ne p t pid hppid]
        exact ih

theorem aliveOf_resultPlayers (a : GameAction) (l : List Player) (pid : String) :
    aliveOf (resultPlayers l a) pid =
      if (a.type = "kill" ∨ a.type = "vote" ∨ a.type = "poison") ∧ pid = a.targetID then
        (aliveOf l pid).map (fun _ => false)
      else if a.type = "save" ∧ pid = a.targetID then
        (aliveOf l pid).map (fun _ => true)
      else aliveOf l pid := by
  by_cases hk : a.type = "kill"
  · have hns : a.type ≠ "save" := by rw [hk]; decide
    rw [show resultPlayers l a
        = updateFirst (fun p => p.id == a.targetID) (setAlive false) l from by
      simp [resultPlayers, hk]]
    rw [aliveOf_updateFirst]
    by_cases ht : pid = a.targetID <;> simp [ht, hk, hns]
  · by_cases hs : a.type = "save"
    · have hf : (fun p => if a.type == "save" then setAlive true p else setAlive false p)
          = setAlive true := by funext p; simp [hs]
      rw [show resultPlayers l a
          = updateFirst (fun p => p.id == a.targetID) (setAlive true) l from by
        simp [resultPlayers, hs, hf]]
      rw [aliveOf_updateFirst]
      by_cases ht : pid = a.targetID <;> simp [ht, hs, hk]
    · by_cases hp : a.type = "poison"
      · have hf : (fun p => if a.type == "save" then setAlive true p else setAlive false p)
            = setAlive false := by funext p; simp [hp]
        rw [show resultPlayers l a
            = updateFirst (fun p => p.id == a.targetID) (setAlive false) l from by
          simp [resultPlayers, hp, hf]]
        rw [aliveOf_updateFirst]
        by_cases ht : pid = a.targetID <;> simp [ht, hp, hs, hk]
      · by_cases hv : a.type = "vote"
        · rw [show resultPlayers l a
              = updateFirst (fun p => p.id == a.targetID) (setAlive false) l from by
            simp [resultPlayers, hv]]
          rw [aliveOf_updateFirst]
          by_cases ht : pid = a.targetID <;> simp [ht, hv, hs, hk]
        · rw [show resultPlayers l a = l from by simp [resultPlayers, hk, hs, hp, hv]]
          simp [hk, hs, hp, hv]

theorem actions_killFold (l : List GameAction) (g : GameState) :
    (l.foldl (fun s a => if a.type == "kill" then processActionResult s a else s) g).actions
      = g.actions :=
  foldl_preserve GameState.actions _
    (fun s a => by by_cases h : a.type = "kill" <;> simp [h, processActionResult]) l g

theorem aliveOf_killFold (l : List GameAction) :
    ∀ (g : GameState) (pid : String),
      aliveOf (l.foldl (fun s a => if a.type == "kill" then processActionResult s a else s)
          g).players pid =
        if hasKillOn l pid then (aliveOf g.players pid).map (fun _ => false)
        else aliveOf g.players pid := by
  induction l with
  | nil => intro g pid; simp [hasKillOn]
  | cons a t ih =>
    intro g pid
    rw [List.foldl_cons]
    by_cases hk : a.type = "kill"
    · rw [if_pos (by simp [hk]), ih]
      by_cases ht : pid = a.targetID
      · have h1 : hasKillOn (a :: t) pid = true := by simp [hasKillOn, hk, ht]
        have h2 : aliveOf (processActionResult g a).players pid
            = (aliveOf g.players pid).map (fun _ => false) := by
          rw [show (processActionResult g a).players = resultPlayers g.players a from rfl,
            aliveOf_resultPlayers]
          simp [hk, ht]
        rw [h1, h2]
        by_cases h3 : hasKillOn t pid <;>
          simp [h3] <;> cases aliveOf g.players pid <;> rfl
      · have htb : (a.targetID == pid) = false := by
          simp only [beq_eq_false_iff_ne, ne_eq]
          exact fun h => ht h.symm
        have h1 : hasKillOn (a :: t) pid = hasKillOn t pid := by
          simp [hasKillOn, List.any_cons, htb]
        have h2 : aliveOf (processActionResult g a).players pid = aliveOf g.players pid := by
          rw [show (processActionResult g a).players = resultPlayers g.players a from rfl,
            aliveOf_resultPlayers]
          simp [ht]
        rw [h1, h2]
    · rw [if_neg (by simp [hk])]
      have h1 : hasKillOn (a :: t) pid = hasKillOn t pid := by simp [hasKillOn, hk]
      rw [ih, h1]

theorem aliveOf_witchFold (l : List GameAction) :
    ∀ (g : GameState) (pid : String),
      aliveOf (l.foldl
          (fun s a => if a.type == "save" || a.type == "poison" then processActionResult s a
            else s) g).players pid =
        (match lastWitchTargeting pid l with
          | some a => (aliveOf g.players pid).map (fun _ => a.type == "save")
          | none => aliveOf g.players pid) := by
  induction l with
  | nil => intro g pid; simp [lastWitchTargeting]
  | cons a t ih =>
    intro g pid
    rw [List.foldl_cons]
    by_cases hw : a.type = "save" ∨ a.type = "poison"
    · rw [if_pos (by rcases hw with h | h <;> simp [h])]
      by_cases ht : pid = a.targetID
      · have h2 : aliveOf (processActionResult g a).players pid
            = (aliveOf g.players pid).map (fun _ => (a.type == "save")) := by
          rw [show (processActionResult g a).players = resultPlayers g.players a from rfl,
            aliveOf_resultPlayers]
          rcases hw with h | h
          · simp [h, ht]
          · simp [h, ht]
        have h1 : lastWitchTargeting pid (a :: t)
            = (match lastWitchTargeting pid t with
                | some b => some b
                | none => some a) := by
          rw [lastWitchTargeting]
          rw [if_pos (by rcases hw with h | h <;> simp [h, ht.symm])]
        rw [ih, h2, h1]
        cases hlt : lastWitchTargeting pid t <;>
          simp [hlt] <;> cases aliveOf g.players pid <;> rfl
      · have h2 : aliveOf (processActionResult g a).players pid = aliveOf g.players pid := by
          rw [show (processActionResult g a).players = resultPlayers g.players a from rfl,
            aliveOf_resultPlayers]
          simp [ht]
        have h1 : lastWitchTargeting pid (a :: t) = lastWitchTargeting pid t := by
          rw [lastWitchTargeting]
          rw [if_neg (by simp; intro _; exact fun h => ht h.symm)]
        rw [ih, h2, h1]
    · rw [if_neg (by simpa using hw)]
      have h1 : lastWitchTargeting pid (a :: t) = lastWitchTargeting pid t := by
        rw [lastWitchTargeting]
        rw [if_neg (by
          simp only [Bool.and_eq_true, Bool.or_eq_true, beq_iff_eq]
          rintro ⟨h | h, -⟩ <;> exact hw (by simp [h]))]
      rw [ih, h1]

theorem processNightResults_proj {β : Type} (proj : GameState → β)
    (hp : ∀ s a, proj (processActionResult s a) = proj s)
    (hclear : ∀ s : GameState, proj { s with actions := ([] : List GameAction) } = proj s)
    (g : GameState) : proj (processNightResults g) = proj g := by
  have h1 := foldl_preserve proj
    (fun s a => if a.type == "kill" then processActionResult s a else s)
    (fun s a => by by_cases h : (a.type == "kill") = true <;> simp [h, hp])
  have h2 := foldl_preserve proj
    (fun s a => if a.type == "save" || a.type == "poison" then processActionResult s a else s)
    (fun s a => by
      by_cases h : (a.type == "save" || a.type == "poison") = true <;> simp [h, hp])
  exact (hclear _).trans ((h2 _ _).trans (h1 _ _))

theorem processVoteResults_proj {β : Type} (proj : GameState → β)
    (hp : ∀ s a, proj (processActionResult s a) = proj s)
    (hclear : ∀ s : GameState, proj { s with actions := ([] : List GameAction) } = proj s)
    (ord : List (String × Nat)) (g : GameState) :
    proj (processVoteResults ord g) = proj g := by
  refine (hclear _).trans ?_
  by_cases h : (findEliminated ord != "") = true <;> simp [h, hp]

theorem checkGameEnd_game (sm : StateMachine) : (checkGameEnd sm).1.game = sm.game := rfl

/-! ### Claim C3 -/

/-- Claim C3 (amended): processNightResults applies every kill action in
submission order (marking each target dead) and then every save/poison
action in submission order, with later witch actions overriding earlier
ones; a save sets its target's alive flag to true unconditionally — also
when that target was not killed in this pass, so it can resurrect a
participant already dead before the pass — and a poison marks its target
dead unconditionally; afterwards the action log is empty.  Formally, a
participant's final alive flag is decided by the last save/poison that
targets it; absent one, it is dead iff some kill targets it, and otherwise
unchanged. -/
theorem claim_C3_amended (g : GameState) (pid : String) :
    aliveOf (processNightResults g).players pid =
      (match lastWitchTargeting pid g.actions with
        | some a => (aliveOf g.players pid).map (fun _ => a.type == "save")
        | none =>
          if hasKillOn g.actions pid then (aliveOf g.players pid).map (fun _ => false)
          else aliveOf g.players pid) ∧
    (processNightResults g).actions = [] := by
  refine ⟨?_, rfl⟩
  have h0 : (processNightResults g).players
      = (((g.actions.foldl
            (fun s a => if a.type == "kill" then processActionResult s a else s) g).actions).foldl
          (fun s a => if a.type == "save" || a.type == "poison" then processActionResult s a
            else s)
          (g.actions.foldl
            (fun s a => if a.type == "kill" then processActionResult s a else s) g)).players :=
    rfl
  rw [h0, actions_killFold, aliveOf_witchFold]
  cases hlt : lastWitchTargeting pid g.actions <;>
    rw [aliveOf_killFold] <;>
      by_cases hko : hasKillOn g.actions pid <;>
        simp [hko] <;> cases aliveOf g.players pid <;> rfl

/-- Claim C3 counterexample: in a night-resolution input whose log holds a
single save targeting `P` — no kill targets `P` in this pass — and where
`P` is already dead when the pass starts, processNightResults sets `P`
alive: a save does set a participant alive who was not killed in this
pass, contrary to the claim. -/
theorem claim_C3_counterexample :
    aliveOf gRes.players "P" = some false ∧
    hasKillOn gRes.actions "P" = false ∧
    aliveOf (processNightResults gRes).players "P" = some true := by decide

/-! ### Claim C1 -/

theorem voteFold_stay (l : List (String × Nat)) (t : String) (c : Nat)
    (h : ∀ e ∈ l, e.2 ≤ c) : l.foldl voteStep (c, t) = (c, t) := by
  induction l with
  | nil => rfl
  | cons e r ih =>
    have he : e.2 ≤ c := h e (by simp)
    rw [List.foldl_cons, show voteStep (c, t) e = (c, t) from by
      simp only [voteStep]; rw [if_neg (Nat.not_lt.mpr he)]]
    exact ih (fun e' he' => h e' (by simp [he']))

theorem voteFold_max (l : List (String × Nat)) (t : String) (c : Nat) :
    ∀ acc : Nat × String, acc.1 < c → (t, c) ∈ l →
      (∀ e ∈ l, e ≠ (t, c) → e.2 < c) → l.foldl voteStep acc = (c, t) := by
  induction l with
  | nil =>
    intro acc _ hmem _
    cases hmem
  | cons e r ih =>
    intro acc hacc hmem hmax
    rw [List.foldl_cons]
    by_cases he : e = (t, c)
    · subst he
      rw [show voteStep acc (t, c) = (c, t) from by
        simp only [voteStep]; rw [if_pos hacc]]
      refine voteFold_stay r t c (fun e' he' => ?_)
      by_cases h : e' = (t, c)
      · subst h; exact le_refl _
      · exact le_of_lt (hmax e' (by simp [he']) h)
    · have hlt : e.2 < c := hmax e (by simp) he
      have hstep1 : (voteStep acc e).1 < c := by
        simp only [voteStep]
        split
        · exact hlt
        · exact hacc
      have hmem' : (t, c) ∈ r := by
        cases hmem with
        | head => exact absurd rfl he
        | tail _ h => exact h
      exact ih (voteStep acc e) hstep1 hmem' (fun e' he' h => hmax e' (by simp [he']) h)

theorem voteFold_snd_mem (l : List (String × Nat)) :
    ∀ acc : Nat × String,
      l.foldl voteStep acc = acc ∨ (l.foldl voteStep acc).2 ∈ l.map Prod.fst := by
  induction l with
  | nil => intro acc; exact Or.inl rfl
  | cons e r ih =>
    intro acc
    rw [List.foldl_cons]
    by_cases h : e.2 > acc.1
    · rw [show voteStep acc e = (e.2, e.1) from by simp only [voteStep]; rw [if_pos h]]
      rcases ih (e.2, e.1) with h1 | h1
      · right; rw [h1]; simp
      · right; rw [List.map_cons]; exact List.mem_cons_of_mem _ h1
    · rw [show voteStep acc e = acc from by simp only [voteStep]; rw [if_neg h]]
      rcases ih acc with h1 | h1
      · exact Or.inl h1
      · right; rw [List.map_cons]; exact List.mem_cons_of_mem _ h1

theorem findEliminated_max (l : List (String × Nat)) (t : String) (c : Nat)
    (hmem : (t, c) ∈ l) (hmax : ∀ e ∈ l, e ≠ (t, c) → e.2 < c) (hc : 0 < c) :
    findEliminated l = t := by
  have h := voteFold_max l t c (0, "") hc hmem hmax
  rw [findEliminated, h]

theorem findEliminated_nonempty (l : List (String × Nat)) (hne : l ≠ [])
    (hpos : ∀ e ∈ l, 0 < e.2) (hkeys : ∀ e ∈ l, e.1 ≠ "") :
    findEliminated l ≠ "" ∧ findEliminated l ∈ l.map Prod.fst := by
  match l, hne with
  | e :: r, _ =>
    have hfe : findEliminated (e :: r) = (r.foldl voteStep (e.2, e.1)).2 := by
      rw [findEliminated, List.foldl_cons, show voteStep (0, "") e = (e.2, e.1) from by
        simp only [voteStep]; rw [if_pos (hpos e (by simp))]]
    rcases voteFold_snd_mem r (e.2, e.1) with h1 | h1
    · refine ⟨by rw [hfe, h1]; exact hkeys e (by simp), by rw [hfe, h1]; simp⟩
    · constructor
      · rw [hfe]
        obtain ⟨e', he', heq⟩ := List.mem_map.mp h1
        rw [← heq]
        exact hkeys e' (List.mem_cons_of_mem _ he')
      · rw [hfe, List.map_cons]
        exact List.mem_cons_of_mem _ h1

theorem tallyEntries_pos (g : GameState) : ∀ e ∈ tallyEntries g, 0 < e.2 := by
  intro e he
  rw [tallyEntries] at he
  obtain ⟨t, ht, rfl⟩ := List.mem_map.mp he
  rw [voteTargets] at ht
  obtain ⟨a, ha, rfl⟩ := List.mem_map.mp (List.mem_dedup.mp ht)
  have ha' := List.mem_filter.mp ha
  show 0 < voteCountFor g.actions a.targetID
  rw [voteCountFor]
  have hmem : a ∈ g.actions.filter
      (fun x => x.type == "vote" && x.targetID == a.targetID) :=
    List.mem_filter.mpr ⟨ha'.1, by simp [ha'.2]⟩
  exact List.length_pos.mpr (fun hnil => by rw [hnil] at hmem; cases hmem)

/-- Claim C1 (amended): processVoteResults tallies votes by target
identifier and eliminates (marks dead) the target with the strictly
highest count — in every map iteration order; but when two or more targets
share the maximal count, the code still eliminates one of the tied targets
(whichever the unspecified Go map iteration order lets win the
strict-maximum scan), not nobody: whenever at least one vote was cast for
a nonempty target ID, some vote target is eliminated.  The log is cleared
in either case. -/
theorem claim_C1_amended (g : GameState) (ord : List (String × Nat)) (t : String) (c : Nat)
    (hperm : ord.Perm (tallyEntries g)) :
    ((t, c) ∈ tallyEntries g →
      (∀ e ∈ tallyEntries g, e ≠ (t, c) → e.2 < c) → t ≠ "" →
      findEliminated ord = t ∧
      processVoteResults ord g =
        { g with players := updateFirst (fun p => p.id == t) (setAlive false) g.players,
                 actions := [] }) ∧
    (tallyEntries g ≠ [] → (∀ e ∈ tallyEntries g, e.1 ≠ "") →
      findEliminated ord ≠ "" ∧ findEliminated ord ∈ (tallyEntries g).map Prod.fst) := by
  constructor
  · intro hmem hmax ht
    have hc : 0 < c := tallyEntries_pos g (t, c) hmem
    have hmem' : (t, c) ∈ ord := hperm.mem_iff.mpr hmem
    have hmax' : ∀ e ∈ ord, e ≠ (t, c) → e.2 < c := fun e he => hmax e (hperm.subset he)
    have hfe : findEliminated ord = t := findEliminated_max ord t c hmem' hmax' hc
    refine ⟨hfe, ?_⟩
    have h1 : (findEliminated ord != "") = true := by
      rw [hfe]; exact bne_iff_ne.mpr ht
    have hv1 : (("vote" : String) == "kill") = false := by decide
    have hv2 : ((("vote" : String) == "save") || (("vote" : String) == "poison")) = false := by
      decide
    have hv3 : (("vote" : String) == "vote") = true := by decide
    have h1t : ((t != "") = true) := bne_iff_ne.mpr ht
    simp only [processVoteResults, h1, if_true, hfe, processActionResult, resultPlayers,
      hv1, hv2, hv3, Bool.false_eq_true, if_false, h1t]
  · intro hne hkeys
    have hne' : ord ≠ [] := by
      intro h
      rw [h] at hperm
      exact hne (hperm.symm.eq_nil)
    have hpos : ∀ e ∈ ord, 0 < e.2 := fun e he => tallyEntries_pos g e (hperm.subset he)
    have hkeys' : ∀ e ∈ ord, e.1 ≠ "" := fun e he => hkeys e (hperm.subset he)
    obtain ⟨h1, h2⟩ := findEliminated_nonempty ord hne' hpos hkeys'
    exact ⟨h1, (hperm.map Prod.fst).subset h2⟩

/-- Claim C1 counterexample: in the vote log with tallies A:2 and B:2 (a
tie at the maximum, all participants alive beforehand), the code
eliminates a participant under every possible iteration order of the
two-entry tally map — A under one order, B under the other — contradicting
the claim that no participant is eliminated on a tie. -/
theorem claim_C1_counterexample :
    ([("A", 2), ("B", 2)] : List (String × Nat)).Perm (tallyEntries gTie) ∧
    ([("B", 2), ("A", 2)] : List (String × Nat)).Perm (tallyEntries gTie) ∧
    gTie.players.all (fun p => p.alive) = true ∧
    aliveOf (processVoteResults [("A", 2), ("B", 2)] gTie).players "A" = some false ∧
    aliveOf (processVoteResults [("B", 2), ("A", 2)] gTie).players "B" = some false := by
  decide

/-- Claim C1 witness: with tallies A:3, B:2, C:2 among seven living
participants, A is eliminated (here under the canonical iteration order;
the theorem gives it for every order). -/
theorem claim_C1_witness :
    findEliminated (tallyEntries gMaj) = "A" ∧
    processVoteResults (tallyEntries gMaj) gMaj =
      { gMaj with
          players := updateFirst (fun p => p.id == "A") (setAlive false) gMaj.players,
          actions := [] } :=
  (claim_C1_amended gMaj (tallyEntries gMaj) "A" 3 (List.Perm.refl _)).1
    (by decide) (by decide) (by decide)

/-! ### Claim C4 -/

theorem countP_split {α : Type} (p : α → Bool) (l : List α) :
    l.countP p + l.countP (fun a => !p a) = l.length := by
  induction l with
  | nil => rfl
  | cons a t ih =>
    by_cases h : p a = true <;> simp [List.countP_cons, h, ← ih] <;> omega

theorem cnt_sum (g : GameState) :
    werewolfCnt g + villagerCnt g = (alivePlayers g).length := by
  rw [werewolfCnt, villagerCnt]
  exact countP_split (fun p => isWolfRole p.role) (alivePlayers g)

/-- Claim C4: checkGameEnd checks win conditions in precedence order with
lover win highest: whenever exactly two participants are alive and both
are flagged as lovers, the outcome is the lover win — even when the
wolf-parity condition also holds; a village win entails zero living
wolf-aligned participants; and the wolf win is declared exactly when the
living wolf-aligned count reaches parity with the living village-aligned
count and no higher-precedence condition (lover win, white-wolf solo win,
village win) claims the session first. -/
theorem claim_C4_win_precedence (sm : StateMachine) :
    (((alivePlayers sm.game).length = 2 ∧ ∀ p ∈ alivePlayers sm.game, p.isLover = true) →
      (checkGameEnd sm).1.status = LoversWin) ∧
    ((checkGameEnd sm).1.status = VillagerWin → werewolfCnt sm.game = 0) ∧
    ((checkGameEnd sm).1.status = WerewolfWin ↔
      (loverWinCond sm.game = false ∧ whiteWolfWinCond sm.game = false ∧
        ¬werewolfCnt sm.game = 0 ∧ villagerCnt sm.game ≤ werewolfCnt sm.game)) := by
  refine ⟨?_, ?_, ?_⟩
  · rintro ⟨hlen, hlov⟩
    have hl : loversAliveCnt sm.game = 2 := by
      rw [loversAliveCnt, List.countP_eq_length.mpr (fun p hp => hlov p hp), hlen]
    have hsum : villagerCnt sm.game + werewolfCnt sm.game = 2 := by
      have := cnt_sum sm.game
      omega
    have hcond : loverWinCond sm.game = true := by
      simp [loverWinCond, hl, hsum]
    simp [checkGameEnd, gameEndStatus, hcond]
  · intro h
    by_cases c1 : loverWinCond sm.game = true
    · simp [checkGameEnd, gameEndStatus, c1] at h
      exact absurd h (by decide)
    · by_cases c2 : whiteWolfWinCond sm.game = true
      · simp [checkGameEnd, gameEndStatus, c1, c2] at h
        exact absurd h (by decide)
      · by_cases c3 : (werewolfCnt sm.game == 0) = true
        · exact beq_iff_eq.mp c3
        · by_cases c4 : villagerCnt sm.game ≤ werewolfCnt sm.game
          · simp [checkGameEnd, gameEndStatus, c1, c2, c3, c4] at h
            exact absurd h (by decide)
          · simp [checkGameEnd, gameEndStatus, c1, c2, c3, c4] at h
            exact absurd h (by decide)
  · by_cases c1 : loverWinCond sm.game = true
    · have hst : (checkGameEnd sm).1.status = LoversWin := by
        simp [checkGameEnd, gameEndStatus, c1]
      rw [hst]
      constructor
      · intro h; exact absurd h (by decide)
      · intro h; rw [h.1] at c1; exact absurd c1 (by decide)
    · by_cases c2 : whiteWolfWinCond sm.game = true
      · have hst : (checkGameEnd sm).1.status = WhiteWolfWin := by
          simp [checkGameEnd, gameEndStatus, c1, c2]
        rw [hst]
        constructor
        · intro h; exact absurd h (by decide)
        · intro h; rw [h.2.1] at c2; exact absurd c2 (by decide)
      · by_cases c3 : (werewolfCnt sm.game == 0) = true
        · have hz : werewolfCnt sm.game = 0 := beq_iff_eq.mp c3
          have hst : (checkGameEnd sm).1.status = VillagerWin := by
            simp [checkGameEnd, gameEndStatus, c1, c2, c3]
          rw [hst]
          constructor
          · intro h; exact absurd h (by decide)
          · intro h; exact absurd hz h.2.2.1
        · have hz : ¬werewolfCnt sm.game = 0 := fun h => c3 (by simp [h])
          by_cases c4 : villagerCnt sm.game ≤ werewolfCnt sm.game
          · have hst : (checkGameEnd sm).1.status = WerewolfWin := by
              simp [checkGameEnd, gameEndStatus, c1, c2, c3, c4]
            rw [hst]
            exact ⟨fun _ => ⟨eq_false_of_ne_true c1, eq_false_of_ne_true c2, hz, c4⟩,
              fun _ => rfl⟩
          · have hst : (checkGameEnd sm).1.status = GameOngoing := by
              simp [checkGameEnd, gameEndStatus, c1, c2, c3, c4]
            rw [hst]
            exact ⟨fun h => absurd h (by decide), fun h => absurd h.2.2.2 c4⟩

/-- Claim C4 witness: a roster with exactly two living participants, both
lovers (one werewolf, one villager: the wolf-parity condition holds as
well) resolves to the lover win. -/
theorem claim_C4_witness :
    (checkGameEnd smLovers).1.status = LoversWin ∧
    villagerCnt smLovers.game ≤ werewolfCnt smLovers.game :=
  ⟨(claim_C4_win_precedence smLovers).1 ⟨by decide, by decide⟩, by decide⟩

/-! ### Claim C6 -/

/-- Claim C6: for every session, a TransitionPhase call leaves the round
counter non-decreasing; when the guards pass (started, phase complete) the
phase advances exactly one step in the strict night→day→vote→night cycle
and the round increments, by exactly 1, exactly on the vote→night
transition; otherwise phase and round are untouched.  The same one-step
cycling holds for checkAndUpdatePhase (game.go's second advancing path). -/
theorem claim_C6_round_monotone_and_cycle (ord : List (String × Nat)) (sm : StateMachine)
    (g : GameState) :
    sm.game.round ≤ ((sm.transitionPhase ord).1).game.round ∧
    ((sm.transitionPhase ord).1).game.phase =
      (if sm.game.isStarted && isPhaseComplete sm.game then nextPhase sm.game.phase
       else sm.game.phase) ∧
    ((sm.transitionPhase ord).1).game.round =
      (if sm.game.isStarted && isPhaseComplete sm.game && (sm.game.phase == PhaseVote)
       then sm.game.round + 1 else sm.game.round) ∧
    (checkAndUpdatePhase g).phase = nextPhase g.phase ∧
    (checkAndUpdatePhase g).round =
      (if g.phase == PhaseVote then g.round + 1 else g.round) := by
  have hcu : (checkAndUpdatePhase g).phase = nextPhase g.phase ∧
      (checkAndUpdatePhase g).round =
        (if g.phase == PhaseVote then g.round + 1 else g.round) := by
    by_cases h1 : g.phase = PhaseNight
    · simp [checkAndUpdatePhase, nextPhase, h1, PhaseNight, PhaseDay, PhaseVote]
    · by_cases h2 : g.phase = PhaseDay
      · simp [checkAndUpdatePhase, nextPhase, h1, h2, PhaseNight, PhaseDay, PhaseVote]
      · by_cases h3 : g.phase = PhaseVote
        · simp [checkAndUpdatePhase, nextPhase, h1, h2, h3, PhaseNight, PhaseDay, PhaseVote]
        · simp [checkAndUpdatePhase, nextPhase, h1, h2, h3]
  have hmain : ((sm.transitionPhase ord).1).game.phase =
      (if sm.game.isStarted && isPhaseComplete sm.game then nextPhase sm.game.phase
       else sm.game.phase) ∧
      ((sm.transitionPhase ord).1).game.round =
      (if sm.game.isStarted && isPhaseComplete sm.game && (sm.game.phase == PhaseVote)
       then sm.game.round + 1 else sm.game.round) := by
    by_cases hstart : sm.game.isStarted = true
    · by_cases hcomp : isPhaseComplete sm.game = true
      · have hnr_round := processNightResults_proj GameState.round
          (fun s a => rfl) (fun s => rfl)
        have hnr_phase := processNightResults_proj GameState.phase
          (fun s a => rfl) (fun s => rfl)
        have hvr_round := processVoteResults_proj GameState.round
          (fun s a => rfl) (fun s => rfl) ord
        by_cases h1 : sm.game.phase = PhaseNight
        · simp [StateMachine.transitionPhase, hstart, hcomp, checkGameEnd, h1,
            nextPhase, hnr_round, PhaseNight, PhaseDay, PhaseVote]
        · by_cases h2 : sm.game.phase = PhaseDay
          · simp [StateMachine.transitionPhase, hstart, hcomp, checkGameEnd, h1, h2,
              nextPhase, PhaseNight, PhaseDay, PhaseVote]
          · by_cases h3 : sm.game.phase = PhaseVote
            · simp [StateMachine.transitionPhase, hstart, hcomp, checkGameEnd, h1, h2, h3,
                nextPhase, hvr_round, PhaseNight, PhaseDay, PhaseVote]
            · exfalso
              rw [isPhaseComplete] at hcomp
              simp [h1, h2, h3] at hcomp
      · simp [StateMachine.transitionPhase, hstart, hcomp]
    · simp [StateMachine.transitionPhase, hstart]
  refine ⟨?_, hmain.1, hmain.2, hcu.1, hcu.2⟩
  rw [hmain.2]
  split <;> omega

/-! ### Claim C7 -/

/-- Claim C7: in a started night-phase session, a kill action whose target
— the first living roster member carrying the target's ID — is
wolf-aligned (werewolf or white wolf) is rejected by GameState.AddAction
with the invalid-target error and is not appended (the submission returns
an error, leaving the caller's state unchanged); a kill whose living
target is not wolf-aligned passes the target check and is appended. -/
theorem claim_C7_kill_target_check (g : GameState) (a : GameAction) (p : Player) (now : Int)
    (hstart : g.isStarted = true) (hphase : g.phase = PhaseNight) (htype : a.type = "kill")
    (hvalid : isValidAction g a = true)
    (hfind : g.players.find? (fun q => q.id == a.targetID && q.alive) = some p)
    (hne : a.targetID ≠ "") :
    (isWolfRole p.role = true → addAction g a now = Except.error invalidTargetMsg) ∧
    (isWolfRole p.role = false → addAction g a now =
      Except.ok { g with actions := g.actions ++ [{ a with timestamp := now }] }) := by
  have htv : targetValid g a = !isWolfRole p.role := by
    rw [targetValid, hfind]
    simp [hphase, htype, PhaseNight, isWolfRole]
  constructor
  · intro hw
    rw [addAction, if_neg (by simp [hstart]), if_neg (by simp [hvalid]),
      if_pos (by simp [htv, hw, bne_iff_ne, hne])]
  · intro hw
    rw [addAction, if_neg (by simp [hstart]), if_neg (by simp [hvalid]),
      if_neg (by simp [htv, hw])]

/-- Claim C7 witness: in the night session gNight, wolf W1's kill against
fellow wolf X is rejected with the invalid-target error, while the same
wolf's kill against villager V passes the target check and is appended. -/
theorem claim_C7_witness :
    addAction gNight aKillWolf 0 = Except.error invalidTargetMsg ∧
    addAction gNight aKillVill 0 = Except.ok gNightAfter :=
  ⟨(claim_C7_kill_target_check gNight aKillWolf (mkPlayer "X" Role.werewolf true false) 0
      (by decide) (by decide) (by decide) (by decide) (by decide) (by decide)).1 (by decide),
   (claim_C7_kill_target_check gNight aKillVill (mkPlayer "V" Role.villager true false) 0
      (by decide) (by decide) (by decide) (by decide) (by decide) (by decide)).2 (by decide)⟩

/-! ### Claim C8 -/

/-- Claim C8 (amended): GameState.AddAction itself has no effect beyond
stamping the timestamp and appending — every successful submission changes
only the action log, and a rejected action (an AddAction error) leaves the
controller's session state entirely unchanged; but
GameController.ProcessAction additionally applies the action's result
(processActionResult) immediately after a successful append, so a kill
submission marks its target dead at submission time rather than deferring
all resolution to phase completion. -/
theorem claim_C8_amended (ord : List (String × Nat)) (sm : StateMachine) (a : GameAction)
    (now : Int) (g' : GameState) :
    (addAction sm.game a now = Except.ok g' →
      g'.players = sm.game.players ∧ g'.phase = sm.game.phase ∧ g'.round = sm.game.round ∧
      g'.isStarted = sm.game.isStarted ∧ g'.skills = sm.game.skills ∧
      g'.timeLeft = sm.game.timeLeft ∧
      g'.actions = sm.game.actions ++ [{ a with timestamp := now }]) ∧
    (∀ e, addAction sm.game a now = Except.error e →
      (controllerProcessAction ord sm a now).1 = sm) ∧
    (sm.game.players.any (fun p => p.id == a.targetID) = true →
      addAction sm.game a now = Except.ok g' →
      isPhaseComplete (processActionResult g' a) = false →
      controllerProcessAction ord sm a now
        = ({ sm with game := processActionResult g' a }, none)) := by
  refine ⟨?_, ?_, ?_⟩
  · intro h
    rw [addAction] at h
    split at h
    · exact absurd h (by simp)
    · split at h
      · exact absurd h (by simp)
      · split at h
        · exact absurd h (by simp)
        · injection h with h'
          subst h'
          exact ⟨rfl, rfl, rfl, rfl, rfl, rfl, rfl⟩
  · intro e he
    rw [controllerProcessAction]
    split
    · rfl
    · rw [he]
  · intro hany h hnc
    rw [controllerProcessAction, if_neg (by simp [hany]), h]
    show (if isPhaseComplete (processActionResult g' a)
        then endCurrentPhase ord { sm with game := processActionResult g' a }
        else ({ sm with game := processActionResult g' a }, none))
      = ({ sm with game := processActionResult g' a }, none)
    rw [if_neg (by simp [hnc])]

/-- Claim C8 counterexample: submitting wolf W1's kill against villager V
through GameController.ProcessAction in a night phase that is not yet
complete succeeds and immediately flips V's alive flag to false — a
participant's alive flag does change during submission, before any phase
resolution, contrary to the claim. -/
theorem claim_C8_counterexample :
    (controllerProcessAction [] smNight aKillVill 0).2 = none ∧
    aliveOf gNight.players "V" = some true ∧
    aliveOf (controllerProcessAction [] smNight aKillVill 0).1.game.players "V" = some false ∧
    (controllerProcessAction [] smNight aKillVill 0).1.game.phase = PhaseNight := by decide

/-- Claim C8 witness: the amended theorem applied to the kill submission
in gNight (target present, append succeeds, phase still incomplete). -/
theorem claim_C8_witness :
    controllerProcessAction [] smNight aKillVill 0
      = ({ smNight with game := processActionResult gNightAfter aKillVill }, none) :=
  (claim_C8_amended [] smNight aKillVill 0 gNightAfter).2.2 (by decide) (by rfl) (by decide)

/-! ### Claim C10 -/

/-- Claim C10: GameController.ProcessAction returns the invalid-target
error, leaving the session untouched, for every action whose TargetID is
not the ID of some roster participant — the check runs before any
role/phase validation (no hypothesis about phase, role or the started flag
is needed); consequently an action with an empty target identifier, such
as a discuss action, is always rejected and never appended. -/
theorem claim_C10_target_must_exist (ord : List (String × Nat)) (sm : StateMachine)
    (a : GameAction) (now : Int) (h : ∀ p ∈ sm.game.players, p.id ≠ a.targetID) :
    controllerProcessAction ord sm a now = (sm, some invalidTargetMsg) := by
  have hany : (sm.game.players.any (fun p => p.id == a.targetID)) = false := by
    rw [List.any_eq_false]
    intro p hp
    simp [h p hp]
  rw [controllerProcessAction, if_pos (by simp [hany])]

/-- Claim C10 witness: a discuss action with an empty target identifier is
rejected by the controller with the invalid-target error. -/
theorem claim_C10_witness :
    controllerProcessAction [] smRoster aDiscussEmpty 0 = (smRoster, some invalidTargetMsg) ∧
    aDiscussEmpty.targetID = "" :=
  ⟨claim_C10_target_must_exist [] smRoster aDiscussEmpty 0 (by decide), rfl⟩

/-! ### Claim C2 -/

/-- Claim C2 (code evaluated at the failing input): the witch's second use
of the save potion in the same session is not rejected — UseWitchSkill
returns no error on the first and on the second call, appends a second
save action, and never touches the stored skill ledger, because
getWitchSkills hands it a fresh zero-valued record on every call. -/
theorem claim_C2_second_use_not_rejected :
    (useWitchSkill gWitch "W" "T" "save").2 = none ∧
    (useWitchSkill gWitch1 "W" "T" "save").2 = none ∧
    (useWitchSkill gWitch1 "W" "T" "save").1.skills = gWitch.skills ∧
    (useWitchSkill gWitch1 "W" "T" "save").1.actions =
      [{ type := "save", playerID := "W", targetID := "T" },
       { type := "save", playerID := "W", targetID := "T" }] := by decide

/-! ### Claim C5 -/

/-- Claim C5 (code evaluated at the failing input): one discuss submission
through GameManager.ProcessAction in a timed-out day phase is appended
twice (once before the state-machine transition and once after it) and
the phase is advanced twice in the same call (day→vote by the state
machine, then vote→night with a round increment by checkAndUpdatePhase);
moreover duplicate votes by the same voter are each counted by the vote
tally. -/
theorem claim_C5_duplicate_append :
    (gmProcessAction [] gDayTimeout aDiscuss).2 = none ∧
    (gmProcessAction [] gDayTimeout aDiscuss).1.actions = [aDiscuss, aDiscuss] ∧
    (gmProcessAction [] gDayTimeout aDiscuss).1.phase = PhaseNight ∧
    (gmProcessAction [] gDayTimeout aDiscuss).1.round = 2 ∧
    voteCountFor [{ type := "vote", playerID := "P1", targetID := "A" },
                  { type := "vote", playerID := "P1", targetID := "A" }] "A" = 2 := by decide

/-! ### Claim C9 -/

/-- Claim C9 (code evaluated at the failing input): with a terminal wolf
win already recorded in the machine's status field, TransitionPhase still
accepts the next transition — the phase advances from day to vote — and
the error it returns carries checkGameEnd's message text, which differs
from the `werewolf_win` constant that GameManager.ProcessAction and
GameController.endCurrentPhase compare error text against, so their
game-end branches can never fire: the machine is not inert after a
terminal outcome. -/
theorem claim_C9_not_inert :
    smTerminal.status = WerewolfWin ∧
    smTerminal.game.phase = PhaseDay ∧
    (smTerminal.transitionPhase []).1.game.phase = PhaseVote ∧
    (smTerminal.transitionPhase []).2 = some werewolfWinMsg ∧
    werewolfWinMsg ≠ WerewolfWin ∧ villagerWinMsg ≠ VillagerWin := by decide

end Werewolf
